import Mathlib

/-!
Verification of the prompt-to-mask geometric pipeline of
`rembg/sessions/sam.py` (SamSession).

The Python source is shallowly embedded below.  Machine floats are
modelled by exact rationals (`ℚ`); numpy exceptions (shape mismatches,
division by zero, out-of-range indexing) are modelled by `Option`,
where `none` means the Python call raises.  The external collaborators
(the ONNX encoder/decoder and the cv2 interpolation kernel) are kept
opaque: only their documented shape contracts are used.
-/

set_option autoImplicit false

namespace Sam

/-! ### 3×3 matrices (the affine transform built in `SamSession.predict`) -/

/-- A 3×3 rational matrix, row-major (`m01` is row 0, column 1). -/
structure Mat3 where
  m00 : ℚ
  m01 : ℚ
  m02 : ℚ
  m10 : ℚ
  m11 : ℚ
  m12 : ℚ
  m20 : ℚ
  m21 : ℚ
  m22 : ℚ
deriving DecidableEq

/-- Matrix product of two 3×3 matrices. -/
def matMul (A B : Mat3) : Mat3 :=
  ⟨A.m00 * B.m00 + A.m01 * B.m10 + A.m02 * B.m20,
   A.m00 * B.m01 + A.m01 * B.m11 + A.m02 * B.m21,
   A.m00 * B.m02 + A.m01 * B.m12 + A.m02 * B.m22,
   A.m10 * B.m00 + A.m11 * B.m10 + A.m12 * B.m20,
   A.m10 * B.m01 + A.m11 * B.m11 + A.m12 * B.m21,
   A.m10 * B.m02 + A.m11 * B.m12 + A.m12 * B.m22,
   A.m20 * B.m00 + A.m21 * B.m10 + A.m22 * B.m20,
   A.m20 * B.m01 + A.m21 * B.m11 + A.m22 * B.m21,
   A.m20 * B.m02 + A.m21 * B.m12 + A.m22 * B.m22⟩

/-- The 3×3 identity matrix. -/
def idMat3 : Mat3 := ⟨1, 0, 0, 0, 1, 0, 0, 0, 1⟩

/-- Determinant of a 3×3 matrix (Laplace expansion along the first row). -/
def det3 (A : Mat3) : ℚ :=
  A.m00 * (A.m11 * A.m22 - A.m12 * A.m21)
    - A.m01 * (A.m10 * A.m22 - A.m12 * A.m20)
    + A.m02 * (A.m10 * A.m21 - A.m11 * A.m20)

/-- Applying a 3×3 matrix to a point: the source appends a homogeneous `1`,
computes `[x, y, 1] @ M.T` (`np.matmul(onnx_coord, transform_matrix.T)`,
sam.py lines 218–225) and keeps the first two coordinates
(`onnx_coord[:, :, :2]`, line 226). -/
def applyHom (M : Mat3) (p : ℚ × ℚ) : ℚ × ℚ :=
  (M.m00 * p.1 + M.m01 * p.2 + M.m02,
   M.m10 * p.1 + M.m11 * p.2 + M.m12)

/-- The transform matrix of sam.py lines 175–181:
`[[scale, 0, 0], [0, scale, 0], [0, 0, 1]]`. -/
def buildTransform (s : ℚ) : Mat3 := ⟨s, 0, 0, 0, s, 0, 0, 0, 1⟩

/-- The matrix `np.linalg.inv(transform_matrix)` computes at sam.py line 241
for the pure-scale transform: reciprocal scale on the diagonal.
(`invTransform_mul` and `mul_invTransform` below verify it is the two-sided,
hence unique, matrix inverse.) -/
def invTransform (s : ℚ) : Mat3 := buildTransform s⁻¹

/-! ### Geometry utilities -/

/-- `get_preprocess_shape` (sam.py lines 16–22):
`scale = long_side_length / max(oldh, oldw)`, then each new dimension is
`int(dim * scale + 0.5)` (round-half-up; arguments are non-negative so
Python's truncating `int` is the floor).  Returns `(newh, neww)`. -/
def get_preprocess_shape (oldh oldw long_side_length : ℕ) : ℤ × ℤ :=
  let scale : ℚ := (long_side_length : ℚ) / (max oldh oldw : ℕ)
  (⌊(oldh : ℚ) * scale + 1 / 2⌋, ⌊(oldw : ℚ) * scale + 1 / 2⌋)

/-- `apply_coords` (sam.py lines 25–35): rescale a point authored against
`original_size = (old_h, old_w)` by the per-axis ratio to the shape derived
from `target_length`; `x` (`coords[..., 0]`) is scaled by `new_w / old_w`
and `y` by `new_h / old_h`. -/
def apply_coords (original_size : ℕ × ℕ) (target_length : ℕ) (p : ℚ × ℚ) : ℚ × ℚ :=
  let nh := (get_preprocess_shape original_size.1 original_size.2 target_length).1
  let nw := (get_preprocess_shape original_size.1 original_size.2 target_length).2
  (p.1 * ((nw : ℚ) / (original_size.2 : ℚ)), p.2 * ((nh : ℚ) / (original_size.1 : ℚ)))

/-! ### Prompt encoder (`get_input_points`, sam.py lines 38–53) -/

/-- One prompt record, as consumed by `get_input_points`: a dict with
`type`, `label` and `data` keys (keys the loop actually reads). -/
structure Mark where
  type : String
  label : ℤ
  data : List ℚ
deriving DecidableEq

/-- `get_input_points` (sam.py lines 38–53).  A `"point"` mark appends its
`data` verbatim and its `label`; a `"rectangle"` mark appends two points
`[data[0], data[1]]`, `[data[2], data[3]]` with labels `2`, `3` (Python
raises `IndexError` when `data` has fewer than four entries: `none`); any
other `type` string contributes nothing.  Returns the points and labels in
input order. -/
def getInputPoints : List Mark → Option (List (List ℚ) × List ℤ)
  | [] => some ([], [])
  | m :: rest =>
    if m.type = "point" then
      (getInputPoints rest).map (fun r => (m.data :: r.1, m.label :: r.2))
    else if m.type = "rectangle" then
      match m.data with
      | x1 :: y1 :: x2 :: y2 :: _ =>
        (getInputPoints rest).map
          (fun r => ([x1, y1] :: [x2, y2] :: r.1, (2 : ℤ) :: 3 :: r.2))
      | _ => none
    else getInputPoints rest

/-- Reading a list of rows as 2-D points: `np.array(points)` builds an
`(n, 2)` array exactly when every row has two entries (a ragged list or a
uniform arity other than 2 makes the later shape-sensitive numpy calls
raise). -/
def toPairs : List (List ℚ) → Option (List (ℚ × ℚ))
  | [] => some []
  | [x, y] :: rest => (toPairs rest).map (fun l => (x, y) :: l)
  | _ => none

/-- The padding step of sam.py lines 208–210:
`np.concatenate([input_points, np.array([[0.0, 0.0]])], axis=0)`.
When `points` is empty, `np.array([])` is a 1-D array of shape `(0,)` and
the concatenation with the 2-D `[[0, 0]]` raises `ValueError` (`none`);
when a row is not a 2-vector the concatenation (or `np.array` itself, if
ragged) also raises.  Otherwise the `(0, 0)` padding row is appended. -/
def onnx_coord_init (points : List (List ℚ)) : Option (List (ℚ × ℚ)) :=
  match points with
  | [] => none
  | _ :: _ => (toPairs points).map (fun l => l ++ [((0 : ℚ), (0 : ℚ))])

/-! ### Decoder-input assembly (sam.py lines 163–164, 207–226) -/

/-- `target_size = 1024` (sam.py line 163). -/
def target_size : ℕ := 1024

/-- `input_size = (684, 1024)` (sam.py line 164), as `(height, width)`. -/
def input_size : ℕ × ℕ := (684, 1024)

/-- The per-point coordinate chain of sam.py lines 214–226: rescale by
`apply_coords (coords, input_size, target_size)`, then append a homogeneous
`1` and multiply by the transform's transpose, dropping the third
coordinate. -/
def chainPoint (M : Mat3) (p : ℚ × ℚ) : ℚ × ℚ :=
  applyHom M (apply_coords input_size target_size p)

/-- The full `point_coords` decoder input for a prompt list: encode the
prompts, pad with the `(0, 0)` row, then run every point through
`chainPoint`.  `none` models the numpy exceptions along the way. -/
def decoderPoints (M : Mat3) (prompt : List Mark) : Option (List (ℚ × ℚ)) :=
  (getInputPoints prompt).bind fun r =>
    (onnx_coord_init r.1).map (fun l => l.map (chainPoint M))

/-- The `point_labels` decoder input (sam.py lines 211–213):
`np.concatenate([input_labels, np.array([-1])])` — appending `-1` to a
possibly empty 1-D label array always succeeds. -/
def decoderLabels (prompt : List Mark) : Option (List ℤ) :=
  (getInputPoints prompt).map (fun r => r.2 ++ [-1])

/-! ### Scale computation (sam.py lines 167–181) -/

/-- The scale computation of sam.py lines 171–173:
`scale_x = input_size[1] / shape[1]`, `scale_y = input_size[0] / shape[0]`,
`scale = min(scale_x, scale_y)`.  A zero image dimension makes the integer
division raise `ZeroDivisionError` before any transform is built (`none`). -/
def computeScale (inputSize : ℕ × ℕ) (imgShape : ℕ × ℕ) : Option ℚ :=
  if imgShape.2 = 0 ∨ imgShape.1 = 0 then none
  else some (min ((inputSize.2 : ℚ) / (imgShape.2 : ℚ))
                 ((inputSize.1 : ℚ) / (imgShape.1 : ℚ)))

/-- The transform handed to `cv2.warpAffine` (sam.py lines 171–188): the
warp at line 183 is reached exactly when the scale computation succeeded,
and uses `buildTransform scale`. -/
def predictTransform (imgShape : ℕ × ℕ) : Option Mat3 :=
  (computeScale input_size imgShape).map buildTransform

/-! ### Mask warp-back and compositing (sam.py lines 56–72, 240–248) -/

/-- The decoder's mask stack: a batch list of channel lists (each channel a
pixel grid of logit-like values), together with the common channel height
and width (`masks.shape[2]`, `masks.shape[3]`). -/
structure MaskStack where
  batches : List (List (ℕ → ℕ → ℚ))
  h : ℕ
  w : ℕ

/-- `transform_masks` (sam.py lines 56–72): every channel of every batch is
warped by `cv2.warpAffine(mask, matrix[:2], (original_size[1],
original_size[0]))`, whose output raster has `original_size[0]` rows and
`original_size[1]` columns regardless of the input size.  The interpolation
kernel `warp` (cv2, an external collaborator) is kept opaque. -/
def transform_masks (warp : (ℕ → ℕ → ℚ) → (ℕ → ℕ → ℚ))
    (stack : MaskStack) (original_size : ℕ × ℕ) : MaskStack :=
  { batches := stack.batches.map (fun b => b.map warp)
    h := original_size.1
    w := original_size.2 }

/-- The compositing loop of sam.py lines 244–246 at one pixel: starting
from `np.zeros(...)`, each channel `m` of the first batch overwrites the
pixel with 255 where `m > 0.0` (`mask[m > 0.0] = [255, 255, 255]`). -/
def composite (channels : List (ℕ → ℕ → ℚ)) (i j : ℕ) : ℕ :=
  channels.foldl (fun acc m => if 0 < m i j then 255 else acc) 0

/-- A single-channel 8-bit image: height, width, and a pixel grid. -/
structure GrayImage where
  h : ℕ
  w : ℕ
  px : ℕ → ℕ → ℕ

/-- PIL's RGB→L conversion, `L = (299 R + 587 G + 114 B) / 1000`
(truncating), applied by `.convert("L")` at sam.py line 248. -/
def convertL (r g b : ℕ) : ℕ := (299 * r + 587 * g + 114 * b) / 1000

/-- The final mask of sam.py lines 244–248: an image sized
`(masks.shape[2], masks.shape[3])`, every selected pixel painted
`[255, 255, 255]` by the channels of the first batch `masks[0]`, then
converted to grayscale.  An empty batch dimension would make `masks[0]`
raise `IndexError` (`none`). -/
def finalMask (stack : MaskStack) : Option GrayImage :=
  match stack.batches with
  | [] => none
  | b0 :: _ =>
    some { h := stack.h
           w := stack.w
           px := fun i j => convertL (composite b0 i j) (composite b0 i j) (composite b0 i j) }

/-! ### Prompt schema validation (sam.py lines 145–161) -/

/-- A JSON value, as validated by `jsonschema.validate`.  Booleans are a
separate constructor: the jsonschema type checker does not count them as
numbers or integers. -/
inductive Json where
  | null
  | bool (b : Bool)
  | num (q : ℚ)
  | str (s : String)
  | arr (items : List Json)
  | obj (fields : List (String × Json))

/-- jsonschema `{"type": "number"}`: the value is a number. -/
def isNumJson : Json → Bool
  | .num _ => true
  | _ => false

/-- jsonschema `{"type": "array", "items": {"type": "number"}}` check for
the `data` property. -/
def checkData : Json → Bool
  | .arr xs => xs.all isNumJson
  | _ => false

/-- jsonschema `{"type": "string"}` applied to an optional property: a
property that is absent passes. -/
def isStrOpt : Option Json → Bool
  | none => true
  | some (.str _) => true
  | some _ => false

/-- jsonschema `{"type": "integer"}` applied to an optional property: an
integer is a number with zero fractional part; booleans do not count. -/
def isIntOpt : Option Json → Bool
  | none => true
  | some (.num q) => q.den == 1
  | some _ => false

/-- The `data` subschema applied to an optional property. -/
def isDataOpt : Option Json → Bool
  | none => true
  | some v => checkData v

/-- jsonschema check of one item against the item schema of sam.py lines
148–158: the item must be an object, and each of the three declared
properties is constrained only WHEN PRESENT (the schema lists no
`required` keys, no `enum` for `type`, and no arity bound for `data`):
`type` must be a string, `label` an integer (a number with zero fractional
part), `data` an array of numbers. -/
def checkItem : Json → Bool
  | .obj fields =>
    isStrOpt (fields.lookup "type")
      && isIntOpt (fields.lookup "label")
      && isDataOpt (fields.lookup "data")
  | _ => false

/-- `validate(instance=prompt, schema=schema)` (sam.py line 161): the
instance must be an array and every item must pass `checkItem`; `true`
means validation passes, `false` means `jsonschema.ValidationError` is
raised before any geometry work. -/
def validatePrompt : Json → Bool
  | .arr items => items.all checkItem
  | _ => false

/-- The prompt format the specification claims is enforced: an ordered
sequence of records with `type` equal to `"point"` or `"rectangle"`, an
integer `label`, and a numeric `data` field of matching arity (2 numbers
for a point, 4 for a rectangle).  Stated from the spec's words, to be
compared with `validatePrompt` (which embeds the source's schema). -/
def conformsClaimed : Json → Bool
  | .arr items => items.all (fun it =>
      match it with
      | .obj fields =>
        (match fields.lookup "type", fields.lookup "data" with
         | some (.str t), some (.arr xs) =>
           ((t == "point" && xs.length == 2) || (t == "rectangle" && xs.length == 4))
             && xs.all isNumJson
         | _, _ => false)
        && (match fields.lookup "label" with
            | some (.num q) => q.den == 1
            | _ => false)
      | _ => false)
  | _ => false

/-- What the source's schema actually requires, as a proposition: a
top-level array whose items are objects, where each of the fields `type`,
`label`, `data`, if present at all, has the stated primitive shape —
nothing constrains the `type` string's value, the presence of any field,
or the arity of `data`. -/
def WeaklyValid (j : Json) : Prop :=
  ∃ items, j = .arr items ∧ ∀ it ∈ items, ∃ fields, it = .obj fields ∧
    (∀ v, fields.lookup "type" = some v → ∃ s, v = .str s) ∧
    (∀ v, fields.lookup "label" = some v → ∃ q, v = .num q ∧ q.den = 1) ∧
    (∀ v, fields.lookup "data" = some v →
      ∃ xs, v = .arr xs ∧ ∀ x ∈ xs, ∃ q, x = .num q)

/-- A prompt that violates the claimed format (a `"point"` whose `data`
has three numbers) but satisfies the source's schema. -/
def badPrompt : Json :=
  .arr [.obj [("type", .str "point"), ("label", .num 0),
              ("data", .arr [.num 1, .num 2, .num 3])]]

/-! ### Helper lemmas -/

/-- The determinant of the pure-scale transform is the square of the scale. -/
theorem det3_buildTransform (s : ℚ) : det3 (buildTransform s) = s * s := by
  simp [det3, buildTransform]

/-- The pure-scale transform acts on a point as uniform scaling. -/
theorem applyHom_buildTransform (s : ℚ) (p : ℚ × ℚ) :
    applyHom (buildTransform s) p = (s * p.1, s * p.2) := by
  simp [applyHom, buildTransform]

/-- Rounding half up hits an integer argument exactly. -/
theorem floor_add_half_intCast (n : ℤ) : ⌊(n : ℚ) + 1 / 2⌋ = n := by
  rw [Int.floor_eq_iff]
  constructor <;> [linarith; push_cast] <;> linarith

/-- Rounding half up moves a rational by at most one half. -/
theorem floor_add_half_close (q : ℚ) : |((⌊q + 1 / 2⌋ : ℤ) : ℚ) - q| ≤ 1 / 2 := by
  have h1 := Int.floor_le (q + 1 / 2)
  have h2 := Int.lt_floor_add_one (q + 1 / 2)
  rw [abs_le]
  constructor <;> linarith

/-! ### Claim theorems -/

/-- Claim C3: for every point `(x, y)` and every scale factor `s` in
`(0, 10]`, the forward transform `diag(s, s, 1)` is invertible (nonzero
determinant, with `invTransform s` its two-sided — hence unique — matrix
inverse, the matrix `np.linalg.inv` returns), and applying the forward
transform and then the inverse recovers the point exactly, in particular
to within the claimed `1e-3` tolerance on each coordinate. -/
theorem affine_roundtrip_exact (s x y : ℚ) (hs : 0 < s) (hs10 : s ≤ 10) :
    det3 (buildTransform s) ≠ 0 ∧
    matMul (buildTransform s) (invTransform s) = idMat3 ∧
    matMul (invTransform s) (buildTransform s) = idMat3 ∧
    applyHom (invTransform s) (applyHom (buildTransform s) (x, y)) = (x, y) ∧
    |(applyHom (invTransform s) (applyHom (buildTransform s) (x, y))).1 - x| ≤ 1 / 1000 ∧
    |(applyHom (invTransform s) (applyHom (buildTransform s) (x, y))).2 - y| ≤ 1 / 1000 := by
  have hs0 : s ≠ 0 := ne_of_gt hs
  have hrt : applyHom (invTransform s) (applyHom (buildTransform s) (x, y)) = (x, y) := by
    simp [applyHom, invTransform, buildTransform, Prod.ext_iff]
    constructor <;> field_simp
  refine ⟨?_, ?_, ?_, hrt, ?_, ?_⟩
  · rw [det3_buildTransform]; exact mul_ne_zero hs0 hs0
  · simp [matMul, invTransform, buildTransform, idMat3, Mat3.mk.injEq]
    field_simp
  · simp [matMul, invTransform, buildTransform, idMat3, Mat3.mk.injEq]
    field_simp
  · rw [hrt]; simp
  · rw [hrt]; simp

/-- Witness for C3: the round trip at scale `2` and point `(3, 5)`. -/
theorem affine_roundtrip_exact_witness :
    ((0 : ℚ) < 2 ∧ (2 : ℚ) ≤ 10) ∧
    (det3 (buildTransform 2) ≠ 0 ∧
     matMul (buildTransform 2) (invTransform 2) = idMat3 ∧
     matMul (invTransform 2) (buildTransform 2) = idMat3 ∧
     applyHom (invTransform 2) (applyHom (buildTransform 2) ((3 : ℚ), (5 : ℚ))) = (3, 5) ∧
     |(applyHom (invTransform 2) (applyHom (buildTransform 2) ((3 : ℚ), (5 : ℚ)))).1 - 3| ≤ 1 / 1000 ∧
     |(applyHom (invTransform 2) (applyHom (buildTransform 2) ((3 : ℚ), (5 : ℚ)))).2 - 5| ≤ 1 / 1000) :=
  ⟨⟨by norm_num, by norm_num⟩, affine_roundtrip_exact 2 3 5 (by norm_num) (by norm_num)⟩

/-- Claim C5: for every positive original size `(H, W)` the pipeline
computes `scale = min(Hi/H, Wi/W)` with `(Hi, Wi) = (684, 1024)` — a
fit-inside scale: positive, shrinking both scaled dimensions inside the
encoder canvas with at least one dimension fitting exactly — and builds
the forward transform as the pure scale matrix `diag(scale, scale, 1)`,
which acts on any point as uniform scaling with no translation. -/
theorem scale_fit_inside_pure_scale (H W : ℕ) (hH : 0 < H) (hW : 0 < W) :
    ∃ s : ℚ, computeScale input_size (H, W) = some s ∧
      s = min ((684 : ℚ) / (H : ℚ)) ((1024 : ℚ) / (W : ℚ)) ∧
      0 < s ∧
      s * (H : ℚ) ≤ 684 ∧ s * (W : ℚ) ≤ 1024 ∧
      (s * (H : ℚ) = 684 ∨ s * (W : ℚ) = 1024) ∧
      buildTransform s = ⟨s, 0, 0, 0, s, 0, 0, 0, 1⟩ ∧
      ∀ p : ℚ × ℚ, applyHom (buildTransform s) p = (s * p.1, s * p.2) := by
  have hHQ : (0 : ℚ) < (H : ℚ) := by exact_mod_cast hH
  have hWQ : (0 : ℚ) < (W : ℚ) := by exact_mod_cast hW
  refine ⟨min ((1024 : ℚ) / (W : ℚ)) ((684 : ℚ) / (H : ℚ)), ?_, min_comm _ _, ?_, ?_, ?_, ?_, rfl,
    fun p => applyHom_buildTransform _ p⟩
  · simp [computeScale, input_size, hH.ne', hW.ne']
  · exact lt_min (div_pos (by norm_num) hWQ) (div_pos (by norm_num) hHQ)
  · have h : min ((1024 : ℚ) / (W : ℚ)) ((684 : ℚ) / (H : ℚ)) ≤ 684 / (H : ℚ) := min_le_right _ _
    calc min ((1024 : ℚ) / (W : ℚ)) ((684 : ℚ) / (H : ℚ)) * (H : ℚ)
        ≤ 684 / (H : ℚ) * (H : ℚ) := mul_le_mul_of_nonneg_right h (le_of_lt hHQ)
      _ = 684 := by field_simp
  · have h : min ((1024 : ℚ) / (W : ℚ)) ((684 : ℚ) / (H : ℚ)) ≤ 1024 / (W : ℚ) := min_le_left _ _
    calc min ((1024 : ℚ) / (W : ℚ)) ((684 : ℚ) / (H : ℚ)) * (W : ℚ)
        ≤ 1024 / (W : ℚ) * (W : ℚ) := mul_le_mul_of_nonneg_right h (le_of_lt hWQ)
      _ = 1024 := by field_simp
  · rcases min_choice ((1024 : ℚ) / (W : ℚ)) ((684 : ℚ) / (H : ℚ)) with h | h
    · right; rw [h]; field_simp
    · left; rw [h]; field_simp

/-- Witness for C5: the scale computation on a 200×100 image. -/
theorem scale_fit_inside_pure_scale_witness :
    (0 < 200 ∧ 0 < 100) ∧
    ∃ s : ℚ, computeScale input_size (200, 100) = some s ∧
      s = min ((684 : ℚ) / ((200 : ℕ) : ℚ)) ((1024 : ℚ) / ((100 : ℕ) : ℚ)) ∧
      0 < s ∧
      s * ((200 : ℕ) : ℚ) ≤ 684 ∧ s * ((100 : ℕ) : ℚ) ≤ 1024 ∧
      (s * ((200 : ℕ) : ℚ) = 684 ∨ s * ((100 : ℕ) : ℚ) = 1024) ∧
      buildTransform s = ⟨s, 0, 0, 0, s, 0, 0, 0, 1⟩ ∧
      ∀ p : ℚ × ℚ, applyHom (buildTransform s) p = (s * p.1, s * p.2) :=
  ⟨⟨by norm_num, by norm_num⟩, scale_fit_inside_pure_scale 200 100 (by norm_num) (by norm_num)⟩

/-- Claim C9: whenever the pipeline reaches the image warp — that is,
whenever a transform matrix is actually produced — both image dimensions
are positive and the transform is invertible (nonzero determinant); a
zero-sized image makes the scale computation fail (Python raises
`ZeroDivisionError` at the division, sam.py lines 171–172) before the
warp at line 183, so no warp is ever attempted with a singular
transform. -/
theorem no_warp_with_singular_transform (H W : ℕ) (M : Mat3)
    (hM : predictTransform (H, W) = some M) :
    0 < H ∧ 0 < W ∧ det3 M ≠ 0 := by
  rw [predictTransform, computeScale] at hM
  by_cases h : (H, W).2 = 0 ∨ (H, W).1 = 0
  · simp [h] at hM
  · push_neg at h
    have hW : W ≠ 0 := h.1
    have hH : H ≠ 0 := h.2
    simp [hW, hH] at hM
    have hHQ : (0 : ℚ) < (H : ℚ) := by exact_mod_cast Nat.pos_of_ne_zero hH
    have hWQ : (0 : ℚ) < (W : ℚ) := by exact_mod_cast Nat.pos_of_ne_zero hW
    have hs : 0 < min ((input_size.2 : ℚ) / (W : ℚ)) ((input_size.1 : ℚ) / (H : ℚ)) := by
      refine lt_min (div_pos ?_ hWQ) (div_pos ?_ hHQ) <;> norm_num [input_size]
    refine ⟨Nat.pos_of_ne_zero hH, Nat.pos_of_ne_zero hW, ?_⟩
    rw [← hM, det3_buildTransform]
    exact mul_ne_zero (ne_of_gt hs) (ne_of_gt hs)

/-- Witness for C9: a 2×3 image produces the transform at scale
`min(1024/3, 684/2) = 1024/3`, which is invertible. -/
theorem no_warp_with_singular_transform_witness :
    predictTransform (2, 3) = some (buildTransform (1024 / 3)) ∧
    (0 < 2 ∧ 0 < 3 ∧ det3 (buildTransform (1024 / 3)) ≠ 0) :=
  ⟨by norm_num [predictTransform, computeScale, input_size, min_def],
   no_warp_with_singular_transform 2 3 _
     (by norm_num [predictTransform, computeScale, input_size, min_def])⟩

/-- Claim C6: for positive `h`, `w` and long-side length `L`,
`get_preprocess_shape h w L` maps the longer dimension exactly to `L`
(the maximum of the result is `L`), and each output dimension is the
round-half-up of the exact proportional value `dim·L / max(h, w)`, hence
within one unit of it. -/
theorem preprocess_shape_long_side (h w L : ℕ) (hh : 0 < h) (hw : 0 < w) (hL : 0 < L) :
    max (get_preprocess_shape h w L).1 (get_preprocess_shape h w L).2 = (L : ℤ) ∧
    (get_preprocess_shape h w L).1 = ⌊(h : ℚ) * (L : ℚ) / ((max h w : ℕ) : ℚ) + 1 / 2⌋ ∧
    (get_preprocess_shape h w L).2 = ⌊(w : ℚ) * (L : ℚ) / ((max h w : ℕ) : ℚ) + 1 / 2⌋ ∧
    |(((get_preprocess_shape h w L).1 : ℤ) : ℚ) - (h : ℚ) * (L : ℚ) / ((max h w : ℕ) : ℚ)| ≤ 1 ∧
    |(((get_preprocess_shape h w L).2 : ℤ) : ℚ) - (w : ℚ) * (L : ℚ) / ((max h w : ℕ) : ℚ)| ≤ 1 := by
  have e1 : (get_preprocess_shape h w L).1 = ⌊(h : ℚ) * (L : ℚ) / ((max h w : ℕ) : ℚ) + 1 / 2⌋ := by
    simp [get_preprocess_shape, mul_div_assoc]
  have e2 : (get_preprocess_shape h w L).2 = ⌊(w : ℚ) * (L : ℚ) / ((max h w : ℕ) : ℚ) + 1 / 2⌋ := by
    simp [get_preprocess_shape, mul_div_assoc]
  refine ⟨?_, e1, e2, ?_, ?_⟩
  · rcases le_total w h with hwh | hhw
    · have hmax : max h w = h := max_eq_left hwh
      have exact1 : (h : ℚ) * (L : ℚ) / ((max h w : ℕ) : ℚ) = (L : ℚ) := by
        rw [hmax]; field_simp
      have r1 : (get_preprocess_shape h w L).1 = (L : ℤ) := by
        rw [e1, exact1]
        exact_mod_cast floor_add_half_intCast (L : ℤ)
      have r2le : (get_preprocess_shape h w L).2 ≤ (L : ℤ) := by
        rw [e2]
        have hle : (w : ℚ) * (L : ℚ) / ((max h w : ℕ) : ℚ) ≤ (L : ℚ) := by
          rw [hmax, div_le_iff₀ (by exact_mod_cast hh)]
          have hc : (w : ℚ) ≤ (h : ℚ) := by exact_mod_cast hwh
          nlinarith [(Nat.cast_nonneg L : (0 : ℚ) ≤ (L : ℚ))]
        calc ⌊(w : ℚ) * (L : ℚ) / ((max h w : ℕ) : ℚ) + 1 / 2⌋
            ≤ ⌊(L : ℚ) + 1 / 2⌋ := Int.floor_le_floor (by linarith)
          _ = (L : ℤ) := floor_add_half_intCast (L : ℤ)
      rw [r1]
      exact max_eq_left r2le
    · have hmax : max h w = w := max_eq_right hhw
      have exact2 : (w : ℚ) * (L : ℚ) / ((max h w : ℕ) : ℚ) = (L : ℚ) := by
        rw [hmax]; field_simp
      have r2 : (get_preprocess_shape h w L).2 = (L : ℤ) := by
        rw [e2, exact2]
        exact_mod_cast floor_add_half_intCast (L : ℤ)
      have r1le : (get_preprocess_shape h w L).1 ≤ (L : ℤ) := by
        rw [e1]
        have hle : (h : ℚ) * (L : ℚ) / ((max h w : ℕ) : ℚ) ≤ (L : ℚ) := by
          rw [hmax, div_le_iff₀ (by exact_mod_cast hw)]
          have hc : (h : ℚ) ≤ (w : ℚ) := by exact_mod_cast hhw
          nlinarith [(Nat.cast_nonneg L : (0 : ℚ) ≤ (L : ℚ))]
        calc ⌊(h : ℚ) * (L : ℚ) / ((max h w : ℕ) : ℚ) + 1 / 2⌋
            ≤ ⌊(L : ℚ) + 1 / 2⌋ := Int.floor_le_floor (by linarith)
          _ = (L : ℤ) := floor_add_half_intCast (L : ℤ)
      rw [r2]
      exact max_eq_right r1le
  · rw [e1]
    calc |((⌊(h : ℚ) * (L : ℚ) / ((max h w : ℕ) : ℚ) + 1 / 2⌋ : ℤ) : ℚ)
          - (h : ℚ) * (L : ℚ) / ((max h w : ℕ) : ℚ)| ≤ 1 / 2 := floor_add_half_close _
      _ ≤ 1 := by norm_num
  · rw [e2]
    calc |((⌊(w : ℚ) * (L : ℚ) / ((max h w : ℕ) : ℚ) + 1 / 2⌋ : ℤ) : ℚ)
          - (w : ℚ) * (L : ℚ) / ((max h w : ℕ) : ℚ)| ≤ 1 / 2 := floor_add_half_close _
      _ ≤ 1 := by norm_num

/-- Concatenating prompt lists concatenates the encoder's outputs: the
encoder emits points and labels in input order. -/
theorem getInputPoints_append (l1 l2 : List Mark) :
    getInputPoints (l1 ++ l2) =
      (getInputPoints l1).bind (fun r1 =>
        (getInputPoints l2).map (fun r2 => (r1.1 ++ r2.1, r1.2 ++ r2.2))) := by
  induction l1 with
  | nil =>
    cases h : getInputPoints l2 <;> simp [getInputPoints, h]
  | cons m rest ih =>
    by_cases hp : m.type = "point"
    · simp only [List.cons_append, getInputPoints, hp, if_true, List.append_eq]
      rw [ih]
      rcases getInputPoints rest with _ | r1 <;>
        rcases getInputPoints l2 with _ | r2 <;> simp
    · by_cases hr : m.type = "rectangle"
      · rcases hd : m.data with _ | ⟨x1, _ | ⟨y1, _ | ⟨x2, _ | ⟨y2, tail⟩⟩⟩⟩ <;>
          simp only [List.cons_append, getInputPoints, hp, hr, hd, if_false, if_true,
            ite_false, ite_true, List.append_eq] <;>
          try rw [ih]
        all_goals try rfl
        rcases getInputPoints rest with _ | r1 <;>
          rcases getInputPoints l2 with _ | r2 <;> simp
      · simp only [List.cons_append, getInputPoints, hp, hr, if_false, ite_false,
          List.append_eq]
        simpa using ih

/-- A mark whose `type` is neither `"point"` nor `"rectangle"` falls
through both branches of the encoder loop. -/
theorem getInputPoints_unknown (m : Mark) (l : List Mark)
    (h1 : m.type ≠ "point") (h2 : m.type ≠ "rectangle") :
    getInputPoints (m :: l) = getInputPoints l := by
  simp [getInputPoints, h1, h2]

/-- Reading rows as 2-D points preserves the number of rows. -/
theorem toPairs_length :
    ∀ (l : List (List ℚ)) (ps : List (ℚ × ℚ)), toPairs l = some ps → ps.length = l.length := by
  intro l
  induction l with
  | nil => intro ps h; simp [toPairs] at h; subst h; rfl
  | cons row rest ih =>
    intro ps h
    rcases row with _ | ⟨x, _ | ⟨y, _ | ⟨z, t⟩⟩⟩ <;> simp [toPairs] at h
    obtain ⟨l', hl', rfl⟩ := h
    simp [ih l' hl']

/-- The decoder-input coordinate chain fixes the origin when the transform
is a pure scale: the `(0, 0)` padding point stays `(0, 0)`. -/
theorem chainPoint_buildTransform_zero (s : ℚ) :
    chainPoint (buildTransform s) (0, 0) = (0, 0) := by
  simp [chainPoint, apply_coords, applyHom, buildTransform]

/-- `chainPoint_buildTransform_zero` restated at `Prod`'s zero, the form
`simp` normalises to. -/
theorem chainPoint_buildTransform_zero' (s : ℚ) :
    chainPoint (buildTransform s) 0 = 0 := chainPoint_buildTransform_zero s

/-- Witness for C6: the preprocess shape of a 200×100 image with long
side 1024. -/
theorem preprocess_shape_long_side_witness :
    (0 < 200 ∧ 0 < 100 ∧ 0 < 1024) ∧
    (max (get_preprocess_shape 200 100 1024).1 (get_preprocess_shape 200 100 1024).2
        = ((1024 : ℕ) : ℤ) ∧
     (get_preprocess_shape 200 100 1024).1
        = ⌊((200 : ℕ) : ℚ) * ((1024 : ℕ) : ℚ) / ((max 200 100 : ℕ) : ℚ) + 1 / 2⌋ ∧
     (get_preprocess_shape 200 100 1024).2
        = ⌊((100 : ℕ) : ℚ) * ((1024 : ℕ) : ℚ) / ((max 200 100 : ℕ) : ℚ) + 1 / 2⌋ ∧
     |(((get_preprocess_shape 200 100 1024).1 : ℤ) : ℚ)
        - ((200 : ℕ) : ℚ) * ((1024 : ℕ) : ℚ) / ((max 200 100 : ℕ) : ℚ)| ≤ 1 ∧
     |(((get_preprocess_shape 200 100 1024).2 : ℤ) : ℚ)
        - ((100 : ℕ) : ℚ) * ((1024 : ℕ) : ℚ) / ((max 200 100 : ℕ) : ℚ)| ≤ 1) :=
  ⟨⟨by norm_num, by norm_num, by norm_num⟩,
   preprocess_shape_long_side 200 100 1024 (by norm_num) (by norm_num) (by norm_num)⟩

/-- Claim C2: a rectangle prompt placed anywhere in the prompt list
expands in place into exactly two (coordinate, label) pairs — the first
corner `[data[0], data[1]]` with label 2, then the second corner
`[data[2], data[3]]` with label 3 — for arbitrary corner coordinates
(no geometric ordering is assumed) and with the rectangle's own `label`
field ignored, while the surrounding prompts keep their input order. -/
theorem rectangle_prompt_two_labeled_corners
    (l1 l2 : List Mark) (r1 r2 : List (List ℚ) × List ℤ)
    (lab : ℤ) (x1 y1 x2 y2 : ℚ) (tail : List ℚ)
    (h1 : getInputPoints l1 = some r1) (h2 : getInputPoints l2 = some r2) :
    getInputPoints (l1 ++ Mark.mk "rectangle" lab (x1 :: y1 :: x2 :: y2 :: tail) :: l2)
      = some (r1.1 ++ [x1, y1] :: [x2, y2] :: r2.1, r1.2 ++ 2 :: 3 :: r2.2) := by
  rw [getInputPoints_append, h1]
  simp [getInputPoints, h2]

/-- Witness for C2: a single rectangle with geometrically reversed corners
(first corner to the right of and below the second) and a nonsense label 9
still yields the two corners labeled 2 and 3 in that order. -/
theorem rectangle_prompt_two_labeled_corners_witness :
    (getInputPoints ([] : List Mark) = some ([], []) ∧
     getInputPoints ([] : List Mark) = some ([], [])) ∧
    getInputPoints ([] ++ Mark.mk "rectangle" 9 ((5 : ℚ) :: 6 :: 1 :: 2 :: []) :: [])
      = some ([] ++ [5, 6] :: [1, 2] :: [], [] ++ 2 :: 3 :: []) :=
  ⟨⟨rfl, rfl⟩,
   rectangle_prompt_two_labeled_corners [] [] ([], []) ([], []) 9 5 6 1 2 [] rfl rfl⟩

/-- Claim C10: a prompt entry whose `type` string is neither `"point"`
nor `"rectangle"` contributes no coordinate and no label and raises no
error — the encoder's result equals the result on the list with that
entry removed. -/
theorem unknown_prompt_type_dropped (l1 l2 : List Mark) (m : Mark)
    (h1 : m.type ≠ "point") (h2 : m.type ≠ "rectangle") :
    getInputPoints (l1 ++ m :: l2) = getInputPoints (l1 ++ l2) := by
  rw [getInputPoints_append, getInputPoints_append, getInputPoints_unknown m l2 h1 h2]

/-- Witness for C10: a `"banana"` entry after a point prompt is silently
dropped. -/
theorem unknown_prompt_type_dropped_witness :
    ((Mark.mk "banana" 1 [7, 8]).type ≠ "point" ∧
     (Mark.mk "banana" 1 [7, 8]).type ≠ "rectangle") ∧
    getInputPoints ([Mark.mk "point" 0 [1, 2]] ++ Mark.mk "banana" 1 [7, 8] :: [])
      = getInputPoints ([Mark.mk "point" 0 [1, 2]] ++ []) :=
  ⟨⟨by decide, by decide⟩,
   unknown_prompt_type_dropped [Mark.mk "point" 0 [1, 2]] [] (Mark.mk "banana" 1 [7, 8])
     (by decide) (by decide)⟩

/-- Counterexample to C1 as stated: the encoder accepts the empty prompt
list (it returns empty point and label arrays), but the padding
concatenation then raises — `np.concatenate` cannot join the 1-D
`np.array([])` with the 2-D `[[0, 0]]` — so the decoder never receives
the claimed single `(0, 0)` marker point. -/
theorem empty_prompt_padding_crash :
    getInputPoints ([] : List Mark) = some ([], []) ∧
    decoderPoints (buildTransform 1) ([] : List Mark) = none :=
  ⟨rfl, rfl⟩

/-- Claim C1 (amended): for every prompt list whose encoded point array
is non-empty (and well-formed as 2-D points), the coordinate set handed
to the decoder is the encoded points — each mapped through the
rescale-then-affine chain — followed by exactly one synthetic `(0, 0)`
padding point (fixed by the pure-scale transform), for a total of `n + 1`
points when the encoder emitted `n`, and the label array is the encoded
labels followed by exactly one `-1`.  The empty case instead raises
(see `empty_prompt_padding_crash`). -/
theorem decoder_point_padding (prompt : List Mark) (pts : List (List ℚ)) (ls : List ℤ)
    (pairs : List (ℚ × ℚ)) (s : ℚ)
    (h1 : getInputPoints prompt = some (pts, ls))
    (h2 : toPairs pts = some pairs)
    (h3 : pts ≠ []) :
    decoderPoints (buildTransform s) prompt
      = some (pairs.map (chainPoint (buildTransform s)) ++ [((0 : ℚ), (0 : ℚ))]) ∧
    (pairs.map (chainPoint (buildTransform s)) ++ [((0 : ℚ), (0 : ℚ))]).length = pts.length + 1 ∧
    decoderLabels prompt = some (ls ++ [-1]) := by
  have hinit : onnx_coord_init pts = some (pairs ++ [((0 : ℚ), (0 : ℚ))]) := by
    cases pts with
    | nil => exact absurd rfl h3
    | cons p rest => simp [onnx_coord_init, h2]
  refine ⟨?_, ?_, ?_⟩
  · simp [decoderPoints, h1, hinit, chainPoint_buildTransform_zero']
  · simp [toPairs_length pts pairs h2]
  · simp [decoderLabels, h1]

/-- Witness for C1 (amended): one point prompt at `(3, 4)`, scale 2. -/
theorem decoder_point_padding_witness :
    (getInputPoints [Mark.mk "point" 1 [3, 4]] = some ([[3, 4]], [1]) ∧
     toPairs [[(3 : ℚ), 4]] = some [(3, 4)] ∧ ([[(3 : ℚ), 4]] : List (List ℚ)) ≠ []) ∧
    (decoderPoints (buildTransform 2) [Mark.mk "point" 1 [3, 4]]
        = some ([((3 : ℚ), (4 : ℚ))].map (chainPoint (buildTransform 2)) ++ [((0 : ℚ), (0 : ℚ))]) ∧
     ([((3 : ℚ), (4 : ℚ))].map (chainPoint (buildTransform 2)) ++ [((0 : ℚ), (0 : ℚ))]).length
        = [[(3 : ℚ), 4]].length + 1 ∧
     decoderLabels [Mark.mk "point" 1 [3, 4]] = some ([1] ++ [-1])) :=
  ⟨⟨by decide, by decide, by decide⟩,
   decoder_point_padding _ _ _ _ 2 (by decide) (by decide) (by decide)⟩

/-- The compositing fold from any accumulator: the result is 255 exactly
when some channel is strictly positive at the pixel, and the accumulator
otherwise. -/
theorem composite_foldl (i j : ℕ) (channels : List (ℕ → ℕ → ℚ)) (acc : ℕ) :
    channels.foldl (fun a m => if 0 < m i j then 255 else a) acc
      = if channels.any (fun m => decide (0 < m i j)) then 255 else acc := by
  induction channels generalizing acc with
  | nil => simp
  | cons c rest ih =>
    simp only [List.foldl_cons, List.any_cons, ih]
    by_cases hc : 0 < c i j <;> simp [hc]

/-- The compositor computes the thresholded union of its channels. -/
theorem composite_eq_union (channels : List (ℕ → ℕ → ℚ)) (i j : ℕ) :
    composite channels i j = if channels.any (fun m => decide (0 < m i j)) then 255 else 0 :=
  composite_foldl i j channels 0

/-- Claim C8: the compositor is idempotent under channel duplication —
inserting a second copy of a channel anywhere after the original leaves
every pixel of the composited mask unchanged. -/
theorem composite_duplicate_channel
    (l1 l2 l3 : List (ℕ → ℕ → ℚ)) (c : ℕ → ℕ → ℚ) (i j : ℕ) :
    composite (l1 ++ c :: l2 ++ c :: l3) i j = composite (l1 ++ c :: l2 ++ l3) i j := by
  simp only [composite_eq_union, List.any_append, List.any_cons]
  by_cases hc : 0 < c i j <;> simp [hc]

/-- White stays white under PIL's RGB→L conversion. -/
theorem convertL_255 : convertL 255 255 255 = 255 := by norm_num [convertL]

/-- Black stays black under PIL's RGB→L conversion. -/
theorem convertL_0 : convertL 0 0 0 = 0 := by norm_num [convertL]

/-- Claim C4: for every mask stack with a first batch, the final mask is a
single-channel image whose pixel dimensions are the original image's
`(H, W)` (the warp-back resizes every channel to the original size), and a
pixel holds 255 exactly when at least one (warped) channel of the first
batch is strictly positive there — a hard threshold at zero, unioned
across channels — every pixel taking one of the two palette values 0 and
255. -/
theorem mask_compositor_union_threshold
    (warp : (ℕ → ℕ → ℚ) → (ℕ → ℕ → ℚ)) (stack : MaskStack) (orig : ℕ × ℕ)
    (b0 : List (ℕ → ℕ → ℚ)) (rest : List (List (ℕ → ℕ → ℚ)))
    (hb : stack.batches = b0 :: rest) :
    ∃ img : GrayImage,
      finalMask (transform_masks warp stack orig) = some img ∧
      img.h = orig.1 ∧ img.w = orig.2 ∧
      ∀ i j : ℕ,
        (img.px i j = 255 ↔ ∃ m ∈ b0, 0 < warp m i j) ∧
        (img.px i j = 0 ∨ img.px i j = 255) := by
  refine ⟨⟨orig.1, orig.2, fun i j =>
      convertL (composite (b0.map warp) i j) (composite (b0.map warp) i j)
        (composite (b0.map warp) i j)⟩, ?_, rfl, rfl, ?_⟩
  · simp [finalMask, transform_masks, hb]
  · intro i j
    have hc := composite_eq_union (b0.map warp) i j
    rw [List.any_map] at hc
    simp only [Function.comp_def] at hc
    cases hany : b0.any (fun m => decide (0 < warp m i j)) with
    | true =>
      simp only [hany, if_true] at hc
      have hex : ∃ m ∈ b0, 0 < warp m i j := by
        have := List.any_eq_true.mp hany
        simpa using this
      exact ⟨by simp [hc, convertL_255, hex], by simp [hc, convertL_255]⟩
    | false =>
      simp only [hany, if_false, Bool.false_eq_true] at hc
      have hnex : ¬ ∃ m ∈ b0, 0 < warp m i j := by
        intro hex
        have hx : b0.any (fun m => decide (0 < warp m i j)) = true := by
          rw [List.any_eq_true]; simpa using hex
        rw [hany] at hx; exact absurd hx (by simp)
      exact ⟨by simp [hc, convertL_0, hnex], by simp [hc, convertL_0]⟩

/-- Witness for C4: a one-batch, one-channel stack of constant logit 1,
warped back (with the identity interpolation) to a 5×6 original. -/
theorem mask_compositor_union_threshold_witness :
    (MaskStack.mk [[fun _ _ => (1 : ℚ)]] 3 4).batches = [fun _ _ => (1 : ℚ)] :: [] ∧
    (∃ img : GrayImage,
      finalMask (transform_masks id (MaskStack.mk [[fun _ _ => (1 : ℚ)]] 3 4) (5, 6)) = some img ∧
      img.h = (5, 6).1 ∧ img.w = (5, 6).2 ∧
      ∀ i j : ℕ,
        (img.px i j = 255 ↔ ∃ m ∈ [fun _ _ => (1 : ℚ)], 0 < id m i j) ∧
        (img.px i j = 0 ∨ img.px i j = 255)) :=
  ⟨rfl, mask_compositor_union_threshold id _ (5, 6) _ [] rfl⟩

/-- `isNumJson` accepts exactly the number values. -/
theorem isNumJson_iff (x : Json) : isNumJson x = true ↔ ∃ q, x = Json.num q := by
  cases x <;> simp [isNumJson]

/-- `checkData` accepts exactly the arrays of numbers, of any length. -/
theorem checkData_iff (v : Json) :
    checkData v = true ↔ ∃ xs, v = Json.arr xs ∧ ∀ x ∈ xs, ∃ q, x = Json.num q := by
  cases v <;> simp [checkData, List.all_eq_true, isNumJson_iff]

/-- The optional `type` check constrains the field only when present. -/
theorem isStrOpt_iff (o : Option Json) :
    isStrOpt o = true ↔ ∀ v, o = some v → ∃ s, v = Json.str s := by
  cases o with
  | none => simp [isStrOpt]
  | some v => cases v <;> simp [isStrOpt]

/-- The optional `label` check constrains the field only when present. -/
theorem isIntOpt_iff (o : Option Json) :
    isIntOpt o = true ↔ ∀ v, o = some v → ∃ q, v = Json.num q ∧ q.den = 1 := by
  cases o with
  | none => simp [isIntOpt]
  | some v => cases v <;> simp [isIntOpt]

/-- The optional `data` check constrains the field only when present. -/
theorem isDataOpt_iff (o : Option Json) :
    isDataOpt o = true ↔
      ∀ v, o = some v → ∃ xs, v = Json.arr xs ∧ ∀ x ∈ xs, ∃ q, x = Json.num q := by
  cases o with
  | none => simp [isDataOpt]
  | some v => simp [isDataOpt, checkData_iff]

/-- One prompt item passes the source's schema exactly when it is an
object whose declared fields, where present, have the primitive shapes. -/
theorem checkItem_iff (it : Json) :
    checkItem it = true ↔ ∃ fields, it = Json.obj fields ∧
      (∀ v, fields.lookup "type" = some v → ∃ s, v = Json.str s) ∧
      (∀ v, fields.lookup "label" = some v → ∃ q, v = Json.num q ∧ q.den = 1) ∧
      (∀ v, fields.lookup "data" = some v →
        ∃ xs, v = Json.arr xs ∧ ∀ x ∈ xs, ∃ q, x = Json.num q) := by
  cases it <;>
    simp [checkItem, isStrOpt_iff, isIntOpt_iff, isDataOpt_iff, and_assoc]

/-- Counterexample to C7 as stated: a `"point"` prompt whose `data` holds
three numbers does not conform to the claimed input format, yet the
source's schema validation accepts it — no `InvalidPromptSchema` error is
raised and the pipeline proceeds to geometry work on it. -/
theorem schema_accepts_nonconforming :
    validatePrompt badPrompt = true ∧ conformsClaimed badPrompt = false :=
  ⟨by decide, by decide⟩

/-- Claim C7 (amended): the validation at sam.py line 161 rejects an
input — raising before any geometry work — exactly when it falls outside
`WeaklyValid`: it must be an array of objects whose `type`, `label` and
`data` fields, WHERE PRESENT, are a string, an integer, and an array of
numbers respectively.  Nothing restricts the `type` string's value, makes
any field mandatory, or ties the arity of `data` to the prompt kind, so
inputs violating those parts of the claimed format are not rejected. -/
theorem prompt_schema_characterization (j : Json) :
    validatePrompt j = true ↔ WeaklyValid j := by
  cases j <;> simp [validatePrompt, WeaklyValid, List.all_eq_true]
  case arr items =>
    exact forall₂_congr (fun it _ => checkItem_iff it)

end Sam
